import Mathlib

/-!
Verification of the fd-lock-rs library (src/lib.rs): a move-only guard
FdLock that owns a resource exposing a raw file descriptor and holds an
advisory flock on it.  The OS flock syscall is treated as a black box: it
is passed in as an oracle of type OsFlock, and every embedded operation
returns, alongside its result, the list of flock requests it issued, so
that theorems can speak about exactly which OS calls each operation makes.
Panics (unwrap on None or on Err) are modelled as the Option value none.
-/

namespace FdLockRs

/-- The OS errno carried by the flock syscall, as seen through the nix
crate: the five codes that the library recognises by name, plus every
other code carried opaquely. -/
inductive Errno where
  | EBADF
  | EINTR
  | EINVAL
  | ENOLCK
  | EWOULDBLOCK
  | other (code : Nat)
  deriving DecidableEq, Repr

/-- In the nix version used by the source, NixError is Errno itself. -/
abbrev NixError := Errno

/-- LockType from src/lib.rs lines 10-13. -/
inductive LockType where
  | Exclusive
  | Shared
  deriving DecidableEq, Repr

/-- Error from src/lib.rs lines 15-23. -/
inductive Error where
  | InvalidFd
  | Interrupted
  | InvalidOperation
  | OutOfMemory
  | WouldBlock
  | Other (e : NixError)
  deriving DecidableEq, Repr

/-- From NixError for Error, src/lib.rs lines 38-49. -/
def Error.fromNix : NixError → Error
  | .EBADF => .InvalidFd
  | .EINTR => .Interrupted
  | .EINVAL => .InvalidOperation
  | .ENOLCK => .OutOfMemory
  | .EWOULDBLOCK => .WouldBlock
  | e => .Other e

/-- The std::io::ErrorKind values used by src/lib.rs lines 50-60. -/
inductive IOErrorKind where
  | InvalidInput
  | Interrupted
  | Other
  | WouldBlock
  deriving DecidableEq, Repr

/-- A std::io::Error built by IOError::new(kind, e): the kind together
with the wrapped domain error. -/
structure IOError where
  kind : IOErrorKind
  error : Error
  deriving DecidableEq, Repr

/-- From Error for IOError, src/lib.rs lines 50-60. -/
def IOError.fromError (e : Error) : IOError :=
  match e with
  | .InvalidFd | .InvalidOperation => ⟨.InvalidInput, e⟩
  | .Interrupted => ⟨.Interrupted, e⟩
  | .OutOfMemory | .Other _ => ⟨.Other, e⟩
  | .WouldBlock => ⟨.WouldBlock, e⟩

/-- FlockArg from the nix crate: the six request modes the library uses. -/
inductive FlockArg where
  | LockShared
  | LockExclusive
  | LockSharedNonblock
  | LockExclusiveNonblock
  | Unlock
  | UnlockNonblock
  deriving DecidableEq, Repr

/-- A raw file descriptor. -/
abbrev RawFd := Int

/-- One flock request: the raw fd it is issued against and its mode. -/
abbrev FlockCall := RawFd × FlockArg

/-- The OS flock syscall as a black box: for a given fd and mode it either
succeeds or fails with an errno. -/
abbrev OsFlock := RawFd → FlockArg → Except Errno Unit

/-- FdLock from src/lib.rs line 62: a guard wrapping an optional resource
slot.  The slot is some while the guard is live and becomes none exactly
when ownership of the resource is taken out of the guard. -/
structure FdLock (F : Type) where
  slot : Option F
  deriving DecidableEq, Repr

/-- Deref for FdLock, src/lib.rs lines 63-68: self.0.as_ref().unwrap().
The none case is the unwrap panic. -/
def FdLock.deref {F : Type} (g : FdLock F) : Option F :=
  g.slot

/-- DerefMut for FdLock, src/lib.rs lines 69-73: self.0.as_mut().unwrap().
The none case is the unwrap panic. -/
def FdLock.deref_mut {F : Type} (g : FdLock F) : Option F :=
  g.slot

/-- The FlockArg chosen by FdLock::lock from (lock_type, blocking),
src/lib.rs lines 78-93. -/
def FdLock.lockArg (lock_type : LockType) (blocking : Bool) : FlockArg :=
  match lock_type with
  | .Exclusive => if blocking then .LockExclusive else .LockExclusiveNonblock
  | .Shared => if blocking then .LockShared else .LockSharedNonblock

/-- FdLock::lock, src/lib.rs lines 75-96.  Issues one flock request with
the mode derived from (lock_type, blocking); on success wraps the moved-in
resource in a guard, on failure maps the errno through From and drops the
resource.  The second component is the list of flock requests issued. -/
def FdLock.lock {F : Type} (os : OsFlock) (as_raw_fd : F → RawFd)
    (f : F) (lock_type : LockType) (blocking : Bool) :
    Except Error (FdLock F) × List FlockCall :=
  match os (as_raw_fd f) (FdLock.lockArg lock_type blocking) with
  | .ok _ => (.ok ⟨some f⟩, [(as_raw_fd f, FdLock.lockArg lock_type blocking)])
  | .error e =>
      (.error (Error.fromNix e), [(as_raw_fd f, FdLock.lockArg lock_type blocking)])

/-- FdLock::map, src/lib.rs lines 97-99: FdLock(self.0.take().map(map_fn)).
Issues no flock request.  The first component is the new guard; the second
is the residual self after take(), whose slot is none and which is dropped
at the end of the call. -/
def FdLock.map {F G : Type} (g : FdLock F) (map_fn : F → G) :
    FdLock G × FdLock F :=
  (⟨g.slot.map map_fn⟩, ⟨none⟩)

/-- Drop for FdLock, src/lib.rs lines 114-120: if the slot is occupied,
issue one blocking Unlock request and unwrap the outcome (a failure is the
unwrap panic, modelled as none); an empty slot issues nothing.  The second
component is the list of flock requests issued. -/
def FdLock.drop {F : Type} (os : OsFlock) (as_raw_fd : F → RawFd)
    (g : FdLock F) : Option Unit × List FlockCall :=
  match g.slot with
  | some f =>
      match os (as_raw_fd f) FlockArg.Unlock with
      | .ok _ => (some (), [(as_raw_fd f, FlockArg.Unlock)])
      | .error _ => (none, [(as_raw_fd f, FlockArg.Unlock)])
  | none => (some (), [])

/-- The FlockArg chosen by FdLock::unlock from blocking,
src/lib.rs lines 103-107. -/
def FdLock.unlockArg (blocking : Bool) : FlockArg :=
  if blocking then .Unlock else .UnlockNonblock

/-- FdLock::unlock, src/lib.rs lines 100-112.  Reads the slot with
as_ref().unwrap() (an empty slot is the unwrap panic, modelled as the
outer none), issues one flock request in Unlock or UnlockNonblock mode,
and on success returns self.0.take().unwrap() while the emptied self is
dropped (that drop is included in the issued-request list and contributes
nothing); on failure returns self intact together with the mapped error.
The second component of the payload is the list of flock requests
issued. -/
def FdLock.unlock {F : Type} (os : OsFlock) (as_raw_fd : F → RawFd)
    (g : FdLock F) (blocking : Bool) :
    Option (Except (FdLock F × Error) F × List FlockCall) :=
  match g.slot with
  | none => none
  | some f =>
      match os (as_raw_fd f) (FdLock.unlockArg blocking) with
      | .ok _ =>
          some (.ok f,
            (as_raw_fd f, FdLock.unlockArg blocking)
              :: (FdLock.drop os as_raw_fd (⟨none⟩ : FdLock F)).2)
      | .error e =>
          some (.error (g, Error.fromNix e),
            [(as_raw_fd f, FdLock.unlockArg blocking)])

/-- C3: the From conversion from OS errno to domain Error maps each of the
five recognised codes to its dedicated variant, and only those codes reach
those variants; every other errno is carried opaquely in Other. -/
theorem Error.fromNix_spec :
    (∀ e : Errno, Error.fromNix e = Error.InvalidFd ↔ e = Errno.EBADF)
    ∧ (∀ e : Errno, Error.fromNix e = Error.Interrupted ↔ e = Errno.EINTR)
    ∧ (∀ e : Errno, Error.fromNix e = Error.InvalidOperation ↔ e = Errno.EINVAL)
    ∧ (∀ e : Errno, Error.fromNix e = Error.OutOfMemory ↔ e = Errno.ENOLCK)
    ∧ (∀ e : Errno, Error.fromNix e = Error.WouldBlock ↔ e = Errno.EWOULDBLOCK)
    ∧ (∀ e : Errno,
        e ≠ Errno.EBADF → e ≠ Errno.EINTR → e ≠ Errno.EINVAL →
        e ≠ Errno.ENOLCK → e ≠ Errno.EWOULDBLOCK →
        Error.fromNix e = Error.Other e) := by
  refine ⟨?_, ?_, ?_, ?_, ?_, ?_⟩ <;> intro e <;> cases e <;>
    simp [Error.fromNix]

/-- Witness for C3: the mapping evaluated at the concrete codes EBADF and
an unrecognised errno. -/
theorem Error.fromNix_spec_witness :
    Error.fromNix Errno.EBADF = Error.InvalidFd
    ∧ Error.fromNix (Errno.other 13) = Error.Other (Errno.other 13) := by
  refine ⟨(Error.fromNix_spec.1 Errno.EBADF).2 rfl, ?_⟩
  exact Error.fromNix_spec.2.2.2.2.2 (Errno.other 13)
    (by decide) (by decide) (by decide) (by decide) (by decide)

/-- C10: the conversion from domain Error to std io Error always carries
the original error value and chooses the io ErrorKind by a fixed mapping:
InvalidInput for InvalidFd and InvalidOperation, Interrupted for
Interrupted, Other for OutOfMemory and Other, WouldBlock for
WouldBlock. -/
theorem IOError.fromError_spec (e : Error) :
    (IOError.fromError e).error = e
    ∧ ((IOError.fromError e).kind = IOErrorKind.InvalidInput
        ↔ (e = Error.InvalidFd ∨ e = Error.InvalidOperation))
    ∧ ((IOError.fromError e).kind = IOErrorKind.Interrupted
        ↔ e = Error.Interrupted)
    ∧ ((IOError.fromError e).kind = IOErrorKind.Other
        ↔ (e = Error.OutOfMemory ∨ ∃ ne, e = Error.Other ne))
    ∧ ((IOError.fromError e).kind = IOErrorKind.WouldBlock
        ↔ e = Error.WouldBlock) := by
  cases e <;> simp [IOError.fromError]

/-- Witness for C10: the conversion evaluated at the concrete error
Interrupted. -/
theorem IOError.fromError_spec_witness :
    (IOError.fromError Error.Interrupted).error = Error.Interrupted
    ∧ (IOError.fromError Error.Interrupted).kind = IOErrorKind.Interrupted :=
  ⟨(IOError.fromError_spec Error.Interrupted).1,
    (IOError.fromError_spec Error.Interrupted).2.2.1.2 rfl⟩

/-- C1: FdLock::lock returns Ok with a guard whose slot holds the moved-in
resource exactly when the OS flock call succeeds; when the OS call fails
with errno e, it returns Err with the mapped domain error Error.fromNix e,
so no guard exists and the result carries no handle to the resource. -/
theorem FdLock.lock_spec {F : Type} (os : OsFlock) (as_raw_fd : F → RawFd)
    (f : F) (t : LockType) (b : Bool) :
    ((FdLock.lock os as_raw_fd f t b).1 = Except.ok (⟨some f⟩ : FdLock F)
      ↔ os (as_raw_fd f) (FdLock.lockArg t b) = Except.ok ())
    ∧ (∀ e : Errno, os (as_raw_fd f) (FdLock.lockArg t b) = Except.error e →
        (FdLock.lock os as_raw_fd f t b).1 = Except.error (Error.fromNix e)) := by
  constructor
  · rcases h : os (as_raw_fd f) (FdLock.lockArg t b) with u | e
    · simp [FdLock.lock, h]
    · simp [FdLock.lock, h]
  · intro e h
    simp [FdLock.lock, h]

/-- Witness for C1: both directions of the success criterion and the
failure mapping evaluated at concrete oracles on fd 7. -/
theorem FdLock.lock_spec_witness :
    (FdLock.lock (fun _ _ => Except.ok ()) (fun n => n) (7 : Int)
        LockType.Exclusive true).1 = Except.ok (⟨some 7⟩ : FdLock Int)
    ∧ (FdLock.lock (fun _ _ => Except.error Errno.EWOULDBLOCK) (fun n => n)
        (7 : Int) LockType.Shared false).1
      = Except.error (Error.fromNix Errno.EWOULDBLOCK) := by
  constructor
  · exact (FdLock.lock_spec (fun _ _ => Except.ok ()) (fun n => n) 7
      LockType.Exclusive true).1.2 rfl
  · exact (FdLock.lock_spec (fun _ _ => Except.error Errno.EWOULDBLOCK)
      (fun n => n) 7 LockType.Shared false).2 Errno.EWOULDBLOCK rfl

/-- C4: for every input, FdLock::lock issues exactly one flock request,
whose mode is LockExclusive for (Exclusive, blocking), LockExclusiveNonblock
for (Exclusive, non-blocking), LockShared for (Shared, blocking) and
LockSharedNonblock for (Shared, non-blocking); and FdLock::unlock on a live
guard issues exactly one flock request, whose mode is Unlock when blocking
and UnlockNonblock otherwise. -/
theorem FdLock.request_modes {F : Type} (os : OsFlock) (as_raw_fd : F → RawFd)
    (f : F) :
    (∀ (t : LockType) (b : Bool),
        (FdLock.lock os as_raw_fd f t b).2
          = [(as_raw_fd f, FdLock.lockArg t b)])
    ∧ FdLock.lockArg LockType.Exclusive true = FlockArg.LockExclusive
    ∧ FdLock.lockArg LockType.Exclusive false = FlockArg.LockExclusiveNonblock
    ∧ FdLock.lockArg LockType.Shared true = FlockArg.LockShared
    ∧ FdLock.lockArg LockType.Shared false = FlockArg.LockSharedNonblock
    ∧ (∀ (b : Bool) r,
        FdLock.unlock os as_raw_fd (⟨some f⟩ : FdLock F) b = some r →
        r.2 = [(as_raw_fd f, FdLock.unlockArg b)])
    ∧ FdLock.unlockArg true = FlockArg.Unlock
    ∧ FdLock.unlockArg false = FlockArg.UnlockNonblock := by
  refine ⟨?_, rfl, rfl, rfl, rfl, ?_, rfl, rfl⟩
  · intro t b
    rcases h : os (as_raw_fd f) (FdLock.lockArg t b) with u | e <;>
      simp [FdLock.lock, h]
  · intro b r h
    rcases hos : os (as_raw_fd f) (FdLock.unlockArg b) with u | e <;>
      · simp [FdLock.unlock, hos, FdLock.drop] at h
        simp [← h]

/-- Witness for C4: the single flock request of a lock and an unlock call
on fd 5 with a concrete oracle. -/
theorem FdLock.request_modes_witness :
    (FdLock.lock (fun _ _ => Except.ok ()) (fun n => n) (5 : Int)
        LockType.Shared false).2 = [((5 : Int), FlockArg.LockSharedNonblock)]
    ∧ ∀ r, FdLock.unlock (fun _ _ => Except.ok ()) (fun n => n)
        (⟨some 5⟩ : FdLock Int) true = some r →
        r.2 = [((5 : Int), FlockArg.Unlock)] := by
  constructor
  · exact (FdLock.request_modes (fun _ _ => Except.ok ()) (fun n => n)
      (5 : Int)).1 LockType.Shared false
  · exact fun r h => (FdLock.request_modes (fun _ _ => Except.ok ())
      (fun n => n) (5 : Int)).2.2.2.2.2.1 true r h

/-- C2: when the OS unlock call fails with errno e, FdLock::unlock on a
live guard returns Err holding the very same guard unchanged together with
the mapped error; that guard still has its slot occupied by the same
resource, transparent access through deref still yields the resource, and
unlock may be retried on it (it never hits the unwrap panic). -/
theorem FdLock.unlock_err_preserves_guard {F : Type} (os : OsFlock)
    (as_raw_fd : F → RawFd) (f : F) (b : Bool) (e : Errno)
    (h : os (as_raw_fd f) (FdLock.unlockArg b) = Except.error e) :
    FdLock.unlock os as_raw_fd (⟨some f⟩ : FdLock F) b
      = some (Except.error ((⟨some f⟩ : FdLock F), Error.fromNix e),
          [(as_raw_fd f, FdLock.unlockArg b)])
    ∧ (⟨some f⟩ : FdLock F).deref = some f
    ∧ (⟨some f⟩ : FdLock F).deref_mut = some f
    ∧ ∀ (os2 : OsFlock) (b2 : Bool),
        (FdLock.unlock os2 as_raw_fd (⟨some f⟩ : FdLock F) b2).isSome := by
  refine ⟨by simp [FdLock.unlock, h], rfl, rfl, ?_⟩
  intro os2 b2
  rcases h2 : os2 (as_raw_fd f) (FdLock.unlockArg b2) with u | e2 <;>
    simp [FdLock.unlock, h2]

/-- Witness for C2: a failing unlock on fd 3 returns the intact guard with
the mapped error. -/
theorem FdLock.unlock_err_preserves_guard_witness :
    FdLock.unlock (fun _ _ => Except.error Errno.EINTR) (fun n => n)
        (⟨some 3⟩ : FdLock Int) false
      = some (Except.error ((⟨some 3⟩ : FdLock Int), Error.fromNix Errno.EINTR),
          [((3 : Int), FdLock.unlockArg false)])
    ∧ (⟨some 3⟩ : FdLock Int).deref = some 3 := by
  have h := FdLock.unlock_err_preserves_guard
    (fun _ _ => Except.error Errno.EINTR) (fun n => n) (3 : Int) false
    Errno.EINTR rfl
  exact ⟨h.1, h.2.1⟩

/-- C5: when the OS unlock call succeeds, FdLock::unlock returns the
wrapped resource to the caller and the consumed guard has had its slot
emptied by take(), so the subsequent drop of that emptied guard issues no
flock request: the only request in the whole call, its implicit drop
included, is the single explicit unlock. -/
theorem FdLock.unlock_ok_consumes {F : Type} (os : OsFlock)
    (as_raw_fd : F → RawFd) (f : F) (b : Bool)
    (h : os (as_raw_fd f) (FdLock.unlockArg b) = Except.ok ()) :
    FdLock.unlock os as_raw_fd (⟨some f⟩ : FdLock F) b
      = some (Except.ok f, [(as_raw_fd f, FdLock.unlockArg b)])
    ∧ FdLock.drop os as_raw_fd (⟨none⟩ : FdLock F) = (some (), []) := by
  refine ⟨?_, rfl⟩
  simp [FdLock.unlock, h, FdLock.drop]

/-- Witness for C5: a successful unlock on fd 9 returns the resource and
issues exactly one request. -/
theorem FdLock.unlock_ok_consumes_witness :
    FdLock.unlock (fun _ _ => Except.ok ()) (fun n => n)
        (⟨some 9⟩ : FdLock Int) true
      = some (Except.ok 9, [((9 : Int), FdLock.unlockArg true)])
    ∧ FdLock.drop (fun _ _ => Except.ok ()) (fun n => n)
        (⟨none⟩ : FdLock Int) = (some (), []) :=
  FdLock.unlock_ok_consumes (fun _ _ => Except.ok ()) (fun n => n)
    (9 : Int) true rfl

/-- C6: dropping a live guard issues exactly one flock request, in
blocking Unlock mode, against the resource fd; if that request succeeds
the drop completes normally, and if it fails the failure is not reported
through any error channel but is the unwrap panic (modelled as none),
never silently ignored; dropping a guard whose slot is already empty
issues no request at all. -/
theorem FdLock.drop_spec {F : Type} (os : OsFlock) (as_raw_fd : F → RawFd)
    (f : F) :
    (FdLock.drop os as_raw_fd (⟨some f⟩ : FdLock F)).2
        = [(as_raw_fd f, FlockArg.Unlock)]
    ∧ (os (as_raw_fd f) FlockArg.Unlock = Except.ok () →
        (FdLock.drop os as_raw_fd (⟨some f⟩ : FdLock F)).1 = some ())
    ∧ (∀ e : Errno, os (as_raw_fd f) FlockArg.Unlock = Except.error e →
        (FdLock.drop os as_raw_fd (⟨some f⟩ : FdLock F)).1 = none)
    ∧ FdLock.drop os as_raw_fd (⟨none⟩ : FdLock F) = (some (), []) := by
  refine ⟨?_, ?_, ?_, rfl⟩
  · rcases h : os (as_raw_fd f) FlockArg.Unlock with u | e <;>
      simp [FdLock.drop, h]
  · intro h
    simp [FdLock.drop, h]
  · intro e h
    simp [FdLock.drop, h]

/-- Witness for C6: a live guard on fd 4 dropped under a failing oracle
issues one blocking Unlock and panics. -/
theorem FdLock.drop_spec_witness :
    (FdLock.drop (fun _ _ => Except.error (Errno.other 5)) (fun n => n)
        (⟨some 4⟩ : FdLock Int)).2 = [((4 : Int), FlockArg.Unlock)]
    ∧ (FdLock.drop (fun _ _ => Except.error (Errno.other 5)) (fun n => n)
        (⟨some 4⟩ : FdLock Int)).1 = none := by
  have h := FdLock.drop_spec (fun _ _ => Except.error (Errno.other 5))
    (fun n => n) (4 : Int)
  exact ⟨h.1, h.2.2.1 (Errno.other 5) rfl⟩

/-- C7: round trip.  If acquiring a lock on resource f succeeds yielding
guard g, and releasing g succeeds, then the resource handed back by the
release is exactly the f originally passed in, unchanged.  The two calls
may observe different OS behaviour (distinct oracles) and different
blocking flags. -/
theorem FdLock.lock_unlock_roundtrip {F : Type} (os1 os2 : OsFlock)
    (as_raw_fd : F → RawFd) (f : F) (t : LockType) (b1 b2 : Bool)
    (g : FdLock F) (hlock : (FdLock.lock os1 as_raw_fd f t b1).1 = Except.ok g)
    (r : Except (FdLock F × Error) F × List FlockCall)
    (hunlock : FdLock.unlock os2 as_raw_fd g b2 = some r)
    (f2 : F) (hok : r.1 = Except.ok f2) : f2 = f := by
  have hg : g = (⟨some f⟩ : FdLock F) := by
    rcases h : os1 (as_raw_fd f) (FdLock.lockArg t b1) with u | e <;>
      simp [FdLock.lock, h] at hlock
    exact hlock.symm
  subst hg
  rcases h2 : os2 (as_raw_fd f) (FdLock.unlockArg b2) with u | e <;>
    simp [FdLock.unlock, h2, FdLock.drop] at hunlock <;>
    rw [← hunlock] at hok <;> simp at hok
  exact hok.symm

/-- Witness for C7: locking then unlocking fd 2 under always-succeeding
oracles returns the original resource. -/
theorem FdLock.lock_unlock_roundtrip_witness : (2 : Int) = 2 :=
  FdLock.lock_unlock_roundtrip (fun _ _ => Except.ok ())
    (fun _ _ => Except.ok ()) (fun n => n) (2 : Int) LockType.Exclusive
    true false (⟨some 2⟩ : FdLock Int) rfl
    (Except.ok 2, [((2 : Int), FdLock.unlockArg false)]) rfl 2 rfl

/-- C8: FdLock::map on a guard holding resource f produces a new guard
whose slot holds exactly map_fn f.  The operation takes no flock oracle at
all, so it issues no OS lock or unlock request of its own; the consumed
original guard is left with an empty slot by take(), so its drop issues no
request either; and the held lock is released exactly when the new guard
is dropped, which issues the one blocking Unlock request against the
mapped resource. -/
theorem FdLock.map_spec {F G : Type} (g : FdLock F) (f : F)
    (map_fn : F → G) (h : g.slot = some f) :
    (FdLock.map g map_fn).1 = (⟨some (map_fn f)⟩ : FdLock G)
    ∧ (FdLock.map g map_fn).2 = (⟨none⟩ : FdLock F)
    ∧ (∀ (os : OsFlock) (as_raw_fd : F → RawFd),
        FdLock.drop os as_raw_fd (FdLock.map g map_fn).2 = (some (), []))
    ∧ (∀ (os : OsFlock) (as_raw_fd2 : G → RawFd),
        (FdLock.drop os as_raw_fd2 (FdLock.map g map_fn).1).2
          = [(as_raw_fd2 (map_fn f), FlockArg.Unlock)]) := by
  refine ⟨by simp [FdLock.map, h], rfl, fun os as_raw_fd => rfl, ?_⟩
  intro os as_raw_fd2
  rcases h2 : os (as_raw_fd2 (map_fn f)) FlockArg.Unlock with u | e <;>
    simp [FdLock.map, h, FdLock.drop, h2]

/-- Witness for C8: mapping a guard on fd 6 through negation yields a
guard on the negated value, the residual guard drops silently, and the
mapped guard drops with one Unlock request. -/
theorem FdLock.map_spec_witness :
    (FdLock.map (⟨some 6⟩ : FdLock Int) (fun n => -n)).1
        = (⟨some (-6)⟩ : FdLock Int)
    ∧ (FdLock.drop (fun _ _ => Except.ok ()) (fun n => n)
        (FdLock.map (⟨some 6⟩ : FdLock Int) (fun n => -n)).2)
        = (some (), [])
    ∧ (FdLock.drop (fun _ _ => Except.ok ()) (fun n => n)
        (FdLock.map (⟨some 6⟩ : FdLock Int) (fun n => -n)).1).2
        = [((-6 : Int), FlockArg.Unlock)] := by
  have h := FdLock.map_spec (⟨some 6⟩ : FdLock Int) 6 (fun n => -n) rfl
  exact ⟨h.1, h.2.2.1 (fun _ _ => Except.ok ()) (fun n => n),
    h.2.2.2 (fun _ _ => Except.ok ()) (fun n => n)⟩

/-- C9: transparent access never fails on a live guard.  A guard produced
by a successful lock dereferences (Deref and DerefMut) to the wrapped
resource; map of a guard that dereferences to f yields a guard that
dereferences to map_fn f; and a guard handed back by a failed unlock
still dereferences to the same resource.  So every guard observable
through the public interface has an occupied slot and the unwrap inside
the dereference operations is unreachable. -/
theorem FdLock.deref_live {F G : Type} (os : OsFlock)
    (as_raw_fd : F → RawFd) :
    (∀ (f : F) (t : LockType) (b : Bool) (g : FdLock F),
        (FdLock.lock os as_raw_fd f t b).1 = Except.ok g →
        g.deref = some f ∧ g.deref_mut = some f)
    ∧ (∀ (g : FdLock F) (f : F) (map_fn : F → G), g.deref = some f →
        (FdLock.map g map_fn).1.deref = some (map_fn f)
        ∧ (FdLock.map g map_fn).1.deref_mut = some (map_fn f))
    ∧ (∀ (g : FdLock F) (f : F) (b : Bool)
        (r : Except (FdLock F × Error) F × List FlockCall)
        (g2 : FdLock F) (e : Error),
        FdLock.unlock os as_raw_fd g b = some r →
        r.1 = Except.error (g2, e) → g.deref = some f →
        g2.deref = some f) := by
  refine ⟨?_, ?_, ?_⟩
  · intro f t b g hlock
    rcases h : os (as_raw_fd f) (FdLock.lockArg t b) with u | e <;>
      simp [FdLock.lock, h] at hlock
    subst hlock
    exact ⟨rfl, rfl⟩
  · intro g f map_fn hd
    have : g.slot = some f := hd
    simp [FdLock.map, this, FdLock.deref, FdLock.deref_mut]
  · intro g f b r g2 e hu hr hd
    have hslot : g.slot = some f := hd
    rcases h2 : os (as_raw_fd f) (FdLock.unlockArg b) with e2 | u
    · simp [FdLock.unlock, hslot, h2] at hu
      rw [← hu] at hr
      simp at hr
      rw [← hr.1]
      exact hd
    · simp [FdLock.unlock, hslot, h2, FdLock.drop] at hu
      rw [← hu] at hr
      simp at hr

/-- Witness for C9: all three liveness facts evaluated on fd 8 with
concrete oracles. -/
theorem FdLock.deref_live_witness :
    ((⟨some 8⟩ : FdLock Int).deref = some 8
      ∧ (⟨some 8⟩ : FdLock Int).deref_mut = some 8)
    ∧ ((FdLock.map (⟨some 8⟩ : FdLock Int) (fun n => n + 1)).1.deref
          = some 9
        ∧ (FdLock.map (⟨some 8⟩ : FdLock Int) (fun n => n + 1)).1.deref_mut
          = some 9) := by
  have h := FdLock.deref_live (F := Int) (G := Int)
    (fun _ _ => Except.ok ()) (fun n => n)
  refine ⟨h.1 8 LockType.Shared true (⟨some 8⟩ : FdLock Int) rfl, ?_⟩
  have h2 := h.2.1 (⟨some 8⟩ : FdLock Int) 8 (fun n => n + 1) rfl
  simpa using h2

end FdLockRs
